import Mathlib

/-!
# Verification of `BoundedPriorityDeque.hpp`

Shallow embedding of the bounded priority deque of
`src/include/BoundedPriorityDeque.hpp` (the `BoundedPriorityDequeBase`
engine and its policy subclasses) and proofs about the claims of the
specification.

Modelling conventions:

* The backing store `std::vector<BoundingPair<K,V>> _buffer` of physical
  length `_k` is modelled as a total function `Nat → BoundingPair K V`
  together with the capacity field `k`.  Slots `≥ k` of the function are
  junk and are never read by well-formed executions; a separate *checked*
  model (`readChk`, `cppMoveChk`, ...) flags every access the C++ code
  performs outside `[0, k)`, every `% 0`, and every call of
  `std::move` / `std::move_backward` on an invalid range, since those are
  undefined behaviour in C++.
* `size_t` values are modelled as `Nat`.  In every place where a C++
  execution can actually wrap (the `_tail = _size - 1` of `resize` on an
  empty container) the wrap-around modulo `2^64` is modelled explicitly
  (`sizetCard`).  `--_size` on `_size == 0` (reachable only through
  undefined behaviour already flagged by the checked model) is modelled
  with truncated `Nat` subtraction.
* The pure-virtual `compare` of the engine is a parameter
  `cmp : K → K → Bool`; `BoundedMinPriorityDeque` instantiates it with
  `fun a b => a < b` (`minCompare` below), as in the source.
-/

set_option autoImplicit false

namespace BPD

/-- `BoundingPair<K, V>`: the stored (priority key, payload) pair
(primary template, `key`/`value` fields). -/
structure BoundingPair (K V : Type) where
  key : K
  value : V
deriving DecidableEq, Repr

instance {K V : Type} [Inhabited K] [Inhabited V] :
    Inhabited (BoundingPair K V) :=
  ⟨⟨default, default⟩⟩

/-- The state of a `BoundedPriorityDequeBase<K, V>`:
`_buffer` (physical circular store), `_k` (capacity), `_size`, `_head`,
`_tail`. -/
structure Deque (K V : Type) where
  buffer : Nat → BoundingPair K V
  k : Nat
  size : Nat
  head : Nat
  tail : Nat

variable {K V : Type}

/-- `2^64`, the number of values of `size_t` on the target platform;
used exactly where a C++ execution can wrap a `size_t` computation. -/
def sizetCard : Nat := 18446744073709551616

/-- Pointwise update of the buffer: `_buffer[i] = e`. -/
def fwrite (buf : Nat → BoundingPair K V) (i : Nat) (e : BoundingPair K V) :
    Nat → BoundingPair K V :=
  fun j => if j = i then e else buf j

/-- `std::move(buf.begin() + first, buf.begin() + last, buf.begin() + dfirst)`:
copies the range `[first, last)` to `[dfirst, dfirst + (last - first))`,
front to back.  For the overlapping use in `insert` (`dfirst = first - 1`)
the forward iteration reads each source slot before overwriting it, so the
destination receives the *original* source values, which is what this
functional version states.  A call with `last < first` is undefined
behaviour in C++; here `last - first = 0` makes it a no-op, and the
checked model (`cppMoveChk`) rejects it. -/
def cppMove (buf : Nat → BoundingPair K V) (first last dfirst : Nat) :
    Nat → BoundingPair K V :=
  fun j =>
    if dfirst ≤ j ∧ j < dfirst + (last - first) then buf (first + (j - dfirst))
    else buf j

/-- `std::move_backward(buf.begin() + first, buf.begin() + last, buf.begin() + dlast)`:
copies the range `[first, last)` to the range *ending* at `dlast`,
back to front.  For the overlapping use in `insert` (`dlast = last + 1`)
the backward iteration reads each source slot before overwriting it.
A call with `last < first` is undefined behaviour in C++; here it is a
no-op, and the checked model (`cppMoveBackwardChk`) rejects it. -/
def cppMoveBackward (buf : Nat → BoundingPair K V) (first last dlast : Nat) :
    Nat → BoundingPair K V :=
  fun j =>
    if dlast - (last - first) ≤ j ∧ j < dlast then
      buf (first + (j - (dlast - (last - first))))
    else buf j

/-- The constructor `BoundedPriorityDequeBase(size_t capacity)`:
`_buffer(capacity)` value-initialized, `_k = capacity`,
`_size = _head = _tail = 0`. -/
def mkDeque (K V : Type) [Inhabited K] [Inhabited V] (capacity : Nat) :
    Deque K V :=
  { buffer := fun _ => default, k := capacity, size := 0, head := 0, tail := 0 }

/-- `nextIndex(current) = (current + 1) % _k`. -/
def nextIndex (s : Deque K V) (current : Nat) : Nat := (current + 1) % s.k

/-- `prevIndex(current) = (current + _k - 1) % _k`.  For `_k = 0` the C++
expression underflows and then divides by zero (undefined behaviour,
flagged by `prevIndexChk`); the `Nat` version is total. -/
def prevIndex (s : Deque K V) (current : Nat) : Nat := (current + s.k - 1) % s.k

/-- `top()` (unchecked build): `_buffer[_head]`. -/
def topD (s : Deque K V) : BoundingPair K V := s.buffer s.head

/-- `bottom()` (unchecked build): `_buffer[_tail]`. -/
def bottomD (s : Deque K V) : BoundingPair K V := s.buffer s.tail

/-- `topK()` (unchecked build): `_buffer[_head].key`. -/
def topKD (s : Deque K V) : K := (s.buffer s.head).key

/-- `bottomK()` (unchecked build): `_buffer[_tail].key`. -/
def bottomKD (s : Deque K V) : K := (s.buffer s.tail).key

/-- `clear()`: `_head = 0; _tail = 0; _size = 0;` (no destructor calls,
the buffer is untouched). -/
def clearD (s : Deque K V) : Deque K V :=
  { s with head := 0, tail := 0, size := 0 }

/-- `size()`. -/
def sizeD (s : Deque K V) : Nat := s.size

/-- `capacity()`. -/
def capacityD (s : Deque K V) : Nat := s.k

/-- `empty()`: `_size == 0`. -/
def emptyD (s : Deque K V) : Bool := s.size == 0

/-- `full()`: `_size == _k`. -/
def fullD (s : Deque K V) : Bool := s.size == s.k

/-- The loop of `binarySearch`:

```cpp
size_t start = 0; auto end = _size;
while (start != end) {
    size_t mid = start + (end - start) / 2;
    if (compare(_buffer[(_head + mid) % _k].key, target.key)) start = mid + 1;
    else end = mid;
}
return start;
```

The loop is embedded with explicit fuel (structural recursion); every
iteration shrinks `stop - start` by at least one, so fuel `_size + 1`
(the initial interval length plus one) is more than the loop can consume,
and because the loop maintains `start ≤ stop`, the C++ guard
`start != end` coincides with `start < stop`. -/
def bsGo (cmp : K → K → Bool) (s : Deque K V) (targetKey : K) :
    Nat → Nat → Nat → Nat
  | 0, start, _ => start
  | fuel + 1, start, stop =>
    if start < stop then
      let mid := start + (stop - start) / 2
      if cmp (s.buffer ((s.head + mid) % s.k)).key targetKey then
        bsGo cmp s targetKey fuel (mid + 1) stop
      else
        bsGo cmp s targetKey fuel start mid
    else start

/-- `binarySearch(target)`: returns `(_head + start) % _k` where `start`
is the result of the loop above. -/
def binarySearch (cmp : K → K → Bool) (s : Deque K V)
    (target : BoundingPair K V) : Nat :=
  (s.head + bsGo cmp s target.key (s.size + 1) 0 s.size) % s.k

/-- `insert(element)` (protection-free insertion shared by `push`,
`emplace` and `operator+=`):

```cpp
if (_size == 0) { _buffer[0] = element; _head = 0; _tail = 0; _size = 1; return; }
auto index = binarySearch(element);
if (index == nextIndex(_tail)) {
    if (index == prevIndex(_head) && compare(element.key, topK())) _head = prevIndex(_head);
    else _tail = nextIndex(_tail);
}
else if (index == prevIndex(_head)) _head = prevIndex(_head);
else if (_head <= _tail && _head > 0) {
    std::move(_buffer.begin() + _head, _buffer.begin() + index + 1, _buffer.begin() + _head - 1);
    --_head;
} else {
    std::move_backward(_buffer.begin() + index, _buffer.begin() + _tail + 1, _buffer.begin() + _tail + 2);
    ++_tail;
}
_buffer[index] = element;
++_size;
```
-/
def insert (cmp : K → K → Bool) (s : Deque K V) (element : BoundingPair K V) :
    Deque K V :=
  if s.size = 0 then
    { s with buffer := fwrite s.buffer 0 element, head := 0, tail := 0, size := 1 }
  else
    let index := binarySearch cmp s element
    if index = nextIndex s s.tail then
      if index = prevIndex s s.head ∧ cmp element.key (topKD s) = true then
        { s with buffer := fwrite s.buffer index element,
                 head := prevIndex s s.head, size := s.size + 1 }
      else
        { s with buffer := fwrite s.buffer index element,
                 tail := nextIndex s s.tail, size := s.size + 1 }
    else if index = prevIndex s s.head then
      { s with buffer := fwrite s.buffer index element,
               head := prevIndex s s.head, size := s.size + 1 }
    else if s.head ≤ s.tail ∧ 0 < s.head then
      { s with buffer := fwrite (cppMove s.buffer s.head (index + 1) (s.head - 1))
                           index element,
               head := s.head - 1, size := s.size + 1 }
    else
      { s with buffer := fwrite (cppMoveBackward s.buffer index (s.tail + 1) (s.tail + 2))
                           index element,
               tail := s.tail + 1, size := s.size + 1 }

/-- `_popTop()`: `_head = nextIndex(_head); if (--_size == 0) clear();`.
(`--_size` on `_size == 0` wraps in C++; that path is reachable only via
undefined behaviour, see the module comment.) -/
def popTopAux (s : Deque K V) : Deque K V :=
  let s1 : Deque K V := { s with head := nextIndex s s.head, size := s.size - 1 }
  if s1.size = 0 then clearD s1 else s1

/-- `_popBottom()`: `_tail = prevIndex(_tail); if (--_size == 0) clear();`. -/
def popBottomAux (s : Deque K V) : Deque K V :=
  let s1 : Deque K V := { s with tail := prevIndex s s.tail, size := s.size - 1 }
  if s1.size = 0 then clearD s1 else s1

/-- `push(element)`:

```cpp
if (_size == _k) {
    if (compare(element.key, _buffer[_tail].key)) _popBottom();
    else return;
}
insert(element);
```
-/
def push (cmp : K → K → Bool) (s : Deque K V) (element : BoundingPair K V) :
    Deque K V :=
  if s.size = s.k then
    if cmp element.key (s.buffer s.tail).key then
      insert cmp (popBottomAux s) element
    else s
  else insert cmp s element

/-- `emplace(key, value)`: same body as `push` with the element
`{ key, value }` (the source duplicates the capacity check rather than
calling `push`). -/
def emplace (cmp : K → K → Bool) (s : Deque K V) (key : K) (value : V) :
    Deque K V :=
  if s.size = s.k then
    if cmp key (s.buffer s.tail).key then
      insert cmp (popBottomAux s) ⟨key, value⟩
    else s
  else insert cmp s ⟨key, value⟩

/-- `pop()` (unchecked build):
`auto index = _head; _popTop(); return _buffer[index];` — the buffer is
not modified by `_popTop`, so the returned entry is the old top. -/
def pop (s : Deque K V) : BoundingPair K V × Deque K V :=
  let index := s.head
  let s1 := popTopAux s
  (s1.buffer index, s1)

/-- `popBottom()` (unchecked build):
`auto index = _tail; _popBottom(); return _buffer[index];`. -/
def popBottom (s : Deque K V) : BoundingPair K V × Deque K V :=
  let index := s.tail
  let s1 := popBottomAux s
  (s1.buffer index, s1)

/-- `operator[](offsetTop)`:
`_buffer[_head <= _tail ? _head + offsetTop : (_head + offsetTop) % _k]`. -/
def getOffset (s : Deque K V) (offsetTop : Nat) : BoundingPair K V :=
  s.buffer (if s.head ≤ s.tail then s.head + offsetTop else (s.head + offsetTop) % s.k)

/-- The loop of `operator+=`:

```cpp
for (size_t i = 0; i < rhs.size(); ++i) {
    if (_size == _k) {
        if (compare(rhs[i].key, bottomK())) _popBottom();
        else return;
    }
    insert(rhs[i]);
}
```

`count` is the number of remaining iterations (`rhs.size() - i`), making
the recursion structural. -/
def mergeLoop (cmp : K → K → Bool) (rhs : Deque K V) :
    Nat → Nat → Deque K V → Deque K V
  | 0, _, s => s
  | count + 1, i, s =>
    if s.size = s.k then
      if cmp (getOffset rhs i).key (bottomKD s) then
        mergeLoop cmp rhs count (i + 1)
          (insert cmp (popBottomAux s) (getOffset rhs i))
      else s
    else mergeLoop cmp rhs count (i + 1) (insert cmp s (getOffset rhs i))

/-- `operator+=(rhs)`: run the merge loop over all of `rhs`'s entries. -/
def madd (cmp : K → K → Bool) (s rhs : Deque K V) : Deque K V :=
  mergeLoop cmp rhs rhs.size 0 s

/-- `resize(k)`:

```cpp
if (k == 0) return;
std::vector<BoundingPair<K, V>> newBuffer(k);
if (_head <= _tail) {
    size_t elementsToCopy = std::min(_size, k);
    std::move(_buffer.begin() + _head, _buffer.begin() + _head + elementsToCopy, newBuffer.begin());
    _size = elementsToCopy;
} else {
    size_t topSize = _k - _head;
    size_t bottomSize = _tail + 1;
    size_t elementsToCopyTop = std::min(topSize, k);
    size_t elementsToCopyBottom = std::min(bottomSize, k - elementsToCopyTop);
    std::move(_buffer.begin() + _head, _buffer.begin() + _head + elementsToCopyTop, newBuffer.begin());
    std::move(_buffer.begin(), _buffer.begin() + elementsToCopyBottom, newBuffer.begin() + elementsToCopyTop);
    _size = elementsToCopyTop + elementsToCopyBottom;
}
_buffer.swap(newBuffer);
_k = k;
_head = 0;
_tail = _size - 1;
```

`_tail = _size - 1` is a `size_t` computation: when the new `_size` is `0`
it wraps to `2^64 - 1`, which the model states explicitly. -/
def resize [Inhabited K] [Inhabited V] (s : Deque K V) (kNew : Nat) :
    Deque K V :=
  if kNew = 0 then s
  else if s.head ≤ s.tail then
    let elementsToCopy := min s.size kNew
    { buffer := fun j =>
        if j < elementsToCopy then s.buffer (s.head + j) else default,
      k := kNew, size := elementsToCopy, head := 0,
      tail := (elementsToCopy + sizetCard - 1) % sizetCard }
  else
    let topSize := s.k - s.head
    let bottomSize := s.tail + 1
    let elementsToCopyTop := min topSize kNew
    let elementsToCopyBottom := min bottomSize (kNew - elementsToCopyTop)
    { buffer := fun j =>
        if j < elementsToCopyTop then s.buffer (s.head + j)
        else if j < elementsToCopyTop + elementsToCopyBottom then
          s.buffer (j - elementsToCopyTop)
        else default,
      k := kNew, size := elementsToCopyTop + elementsToCopyBottom, head := 0,
      tail := (elementsToCopyTop + elementsToCopyBottom + sizetCard - 1) % sizetCard }

/-- The comparison of `BoundedMinPriorityDeque`: `compare(a, b) = a < b`. -/
def minCompare (a b : Nat) : Bool := a < b

/-- The live entries read from `_head` advancing circularly `_size` times
(the logical, priority-ordered content of the deque). -/
def logicalList (s : Deque K V) : List (BoundingPair K V) :=
  (List.range s.size).map fun i => s.buffer ((s.head + i) % s.k)

/-- The keys of the live entries in logical order. -/
def logicalKeys (s : Deque K V) : List K :=
  (logicalList s).map fun e => e.key

/-- The sort-order condition of the specification, as an executable
check on a key list: each key is not better-ranked (`cmp`) than the one
after it. -/
def sortedOk (cmp : K → K → Bool) : List K → Bool
  | [] => true
  | [_] => true
  | a :: b :: rest => (!cmp b a) && sortedOk cmp (b :: rest)

/-! ## The checked (defined-behaviour) model

The same operations again, with every buffer access the C++ code performs
bounds-checked, every `%` checked for a zero divisor and every
`std::move` / `std::move_backward` checked for a valid range and a
destination the standard allows, so that a returned `.error` marks an
execution that is undefined behaviour in C++. -/

/-- Error raised when the C++ code reads or writes `_buffer` outside
`[0, _k)`. -/
def oobMsg : String := "out-of-bounds buffer access"

/-- Error raised when the C++ code computes `x % 0`. -/
def modZeroMsg : String := "modulo by zero"

/-- Error raised when the C++ code calls `std::move`/`std::move_backward`
on an invalid range or an overlapping destination the standard forbids. -/
def invalidMoveMsg : String := "invalid move range"

/-- Bounds-checked read of `_buffer[i]`. -/
def readChk (s : Deque K V) (i : Nat) : Except String (BoundingPair K V) :=
  if i < s.k then .ok (s.buffer i) else .error oobMsg

/-- Checked `a % b`. -/
def modChk (a b : Nat) : Except String Nat :=
  if b = 0 then .error modZeroMsg else .ok (a % b)

/-- Checked `nextIndex`. -/
def nextIndexChk (s : Deque K V) (current : Nat) : Except String Nat :=
  modChk (current + 1) s.k

/-- Checked `prevIndex` (`(current + _k - 1) % _k`; with `_k = 0` the
`size_t` subtraction wraps — defined — and the `% 0` is undefined). -/
def prevIndexChk (s : Deque K V) (current : Nat) : Except String Nat :=
  if s.k = 0 then .error modZeroMsg else .ok ((current + s.k - 1) % s.k)

/-- Checked `std::move` over a buffer of physical length `k`: the range
must satisfy `first ≤ last`, stay inside the buffer, and the destination
must not start inside `[first, last)`. -/
def cppMoveChk (buf : Nat → BoundingPair K V) (k first last dfirst : Nat) :
    Except String (Nat → BoundingPair K V) :=
  if first ≤ last ∧ last ≤ k ∧ dfirst + (last - first) ≤ k ∧
      (dfirst < first ∨ last ≤ dfirst) then
    .ok (cppMove buf first last dfirst)
  else .error invalidMoveMsg

/-- Checked `std::move_backward`: the range must satisfy `first ≤ last`,
stay inside the buffer, the destination `[dlast - (last - first), dlast)`
must fit, and `dlast` must not lie inside `(first, last]`. -/
def cppMoveBackwardChk (buf : Nat → BoundingPair K V) (k first last dlast : Nat) :
    Except String (Nat → BoundingPair K V) :=
  if first ≤ last ∧ last ≤ k ∧ dlast ≤ k ∧ last - first ≤ dlast ∧
      (dlast ≤ first ∨ last < dlast) then
    .ok (cppMoveBackward buf first last dlast)
  else .error invalidMoveMsg

/-- Checked loop of `binarySearch`. -/
def bsGoChk (cmp : K → K → Bool) (s : Deque K V) (targetKey : K) :
    Nat → Nat → Nat → Except String Nat
  | 0, start, _ => .ok start
  | fuel + 1, start, stop =>
    if start < stop then do
      let mid := start + (stop - start) / 2
      let idx ← modChk (s.head + mid) s.k
      let e ← readChk s idx
      if cmp e.key targetKey then bsGoChk cmp s targetKey fuel (mid + 1) stop
      else bsGoChk cmp s targetKey fuel start mid
    else .ok start

/-- Checked `binarySearch`. -/
def binarySearchChk (cmp : K → K → Bool) (s : Deque K V)
    (target : BoundingPair K V) : Except String Nat := do
  let r ← bsGoChk cmp s target.key (s.size + 1) 0 s.size
  modChk (s.head + r) s.k

/-- Checked `insert` (same branch structure as `insert`; the final
`_buffer[index] = element` write is in bounds because `index` is a
`% _k` result). -/
def insertChk (cmp : K → K → Bool) (s : Deque K V)
    (element : BoundingPair K V) : Except String (Deque K V) :=
  if s.size = 0 then
    if 0 < s.k then
      .ok { s with buffer := fwrite s.buffer 0 element,
                   head := 0, tail := 0, size := 1 }
    else .error oobMsg
  else do
    let index ← binarySearchChk cmp s element
    let nt ← nextIndexChk s s.tail
    if index = nt then do
      let ph ← prevIndexChk s s.head
      if index = ph then do
        let tK ← readChk s s.head
        if cmp element.key tK.key then
          .ok { s with buffer := fwrite s.buffer index element,
                       head := ph, size := s.size + 1 }
        else
          .ok { s with buffer := fwrite s.buffer index element,
                       tail := nt, size := s.size + 1 }
      else
        .ok { s with buffer := fwrite s.buffer index element,
                     tail := nt, size := s.size + 1 }
    else do
      let ph ← prevIndexChk s s.head
      if index = ph then
        .ok { s with buffer := fwrite s.buffer index element,
                     head := ph, size := s.size + 1 }
      else if s.head ≤ s.tail ∧ 0 < s.head then do
        let buf ← cppMoveChk s.buffer s.k s.head (index + 1) (s.head - 1)
        .ok { s with buffer := fwrite buf index element,
                     head := s.head - 1, size := s.size + 1 }
      else do
        let buf ← cppMoveBackwardChk s.buffer s.k index (s.tail + 1) (s.tail + 2)
        .ok { s with buffer := fwrite buf index element,
                     tail := s.tail + 1, size := s.size + 1 }

/-- Checked `_popBottom`. -/
def popBottomAuxChk (s : Deque K V) : Except String (Deque K V) := do
  let pt ← prevIndexChk s s.tail
  let s1 : Deque K V := { s with tail := pt, size := s.size - 1 }
  .ok (if s1.size = 0 then clearD s1 else s1)

/-- Checked `push`: at capacity it reads `_buffer[_tail]` (bounds-checked)
before comparing. -/
def pushChk (cmp : K → K → Bool) (s : Deque K V)
    (element : BoundingPair K V) : Except String (Deque K V) :=
  if s.size = s.k then do
    let bt ← readChk s s.tail
    if cmp element.key bt.key then do
      let s1 ← popBottomAuxChk s
      insertChk cmp s1 element
    else .ok s
  else insertChk cmp s element

/-- Checked `emplace` (the source duplicates `push`'s body). -/
def emplaceChk (cmp : K → K → Bool) (s : Deque K V) (key : K) (value : V) :
    Except String (Deque K V) :=
  if s.size = s.k then do
    let bt ← readChk s s.tail
    if cmp key bt.key then do
      let s1 ← popBottomAuxChk s
      insertChk cmp s1 ⟨key, value⟩
    else .ok s
  else insertChk cmp s ⟨key, value⟩

/-- Error for `pop`/`popBottom` on an empty container, which the
unchecked build leaves undefined. -/
def popEmptyUbMsg : String := "pop from empty container"

/-- Checked (unchecked-build) `pop`: defined exactly when the container
is non-empty and the accesses are in bounds. -/
def popChk (s : Deque K V) : Except String (BoundingPair K V × Deque K V) :=
  if s.size = 0 then .error popEmptyUbMsg
  else do
    let nh ← nextIndexChk s s.head
    let hd ← readChk s s.head
    let s1 : Deque K V := { s with head := nh, size := s.size - 1 }
    .ok (hd, if s1.size = 0 then clearD s1 else s1)

/-- An operation of a test scenario. -/
inductive Op (K V : Type) where
  | pushOp (element : BoundingPair K V)
  | popOp

/-- Run a scenario in the plain model. -/
def runOps (cmp : K → K → Bool) : List (Op K V) → Deque K V → Deque K V
  | [], s => s
  | Op.pushOp e :: rest, s => runOps cmp rest (push cmp s e)
  | Op.popOp :: rest, s => runOps cmp rest (pop s).2

/-- Run a scenario in the checked model. -/
def runChk (cmp : K → K → Bool) : List (Op K V) → Deque K V →
    Except String (Deque K V)
  | [], s => .ok s
  | Op.pushOp e :: rest, s => do
    let s1 ← pushChk cmp s e
    runChk cmp rest s1
  | Op.popOp :: rest, s => do
    let p ← popChk s
    runChk cmp rest p.2

/-- The error message of a checked result, if any. -/
def errorOf {α : Type} : Except String α → Option String
  | .error msg => some msg
  | .ok _ => none

/-- The logical keys of a checked result, if it succeeded. -/
def okLogicalKeys : Except String (Deque K V) → Option (List K)
  | .error _ => none
  | .ok s => some (logicalKeys s)

/-- Push a list of entries in order. -/
def pushAll (cmp : K → K → Bool) (es : List (BoundingPair K V))
    (s : Deque K V) : Deque K V :=
  es.foldl (push cmp) s

/-- Pop `n` times, returning the final state. -/
def popN : Nat → Deque K V → Deque K V
  | 0, s => s
  | n + 1, s => popN n (pop s).2

/-- The entries returned by popping `n` times. -/
def popAllGo : Nat → Deque K V → List (BoundingPair K V)
  | 0, _ => []
  | n + 1, s => (pop s).1 :: popAllGo n (pop s).2

/-- The keys returned by repeatedly calling `pop()` until empty. -/
def popKeys (s : Deque K V) : List K :=
  (popAllGo s.size s).map fun e => e.key

/-- A `push` or `emplace` call. -/
inductive PushCall (K V : Type) where
  | pushC (element : BoundingPair K V)
  | emplaceC (key : K) (value : V)

/-- Run a sequence of `push`/`emplace` calls. -/
def runPushCalls (cmp : K → K → Bool) :
    List (PushCall K V) → Deque K V → Deque K V
  | [], s => s
  | PushCall.pushC e :: rest, s => runPushCalls cmp rest (push cmp s e)
  | PushCall.emplaceC key value :: rest, s =>
    runPushCalls cmp rest (emplace cmp s key value)

/-! ## The checked build (`ENABLE_DEBUG`)

Under `ENABLE_DEBUG`, `top`, `bottom`, `pop` and `popBottom` first test
`empty()` and throw `std::runtime_error` with a fixed message; the throw
happens before any state mutation. -/

/-- Message of `top()` on an empty container. -/
def topEmptyMsg : String :=
  "Attempted to access top element of empty BoundedPriorityDeque"

/-- Message of `bottom()` on an empty container. -/
def bottomEmptyMsg : String :=
  "Attempted to access bottom element of empty BoundedPriorityDeque"

/-- Message of `pop()` on an empty container; the source throws the
*same* string from `popBottom()`. -/
def popEmptyMsg : String :=
  "Attempted to pop from empty BoundedPriorityDeque"

/-- The four operations guarded by the checked build. -/
inductive DebugOp where
  | topOp | bottomOp | popOp | popBottomOp
deriving DecidableEq, Repr

/-- The message each guarded operation throws on an empty container,
exactly as in the source (note `popOp` and `popBottomOp` share one
string). -/
def emptyMsg : DebugOp → String
  | DebugOp.topOp => topEmptyMsg
  | DebugOp.bottomOp => bottomEmptyMsg
  | DebugOp.popOp => popEmptyMsg
  | DebugOp.popBottomOp => popEmptyMsg

/-- `top()` in the checked build. -/
def topDbg (s : Deque K V) : Except String (BoundingPair K V) :=
  if emptyD s then .error topEmptyMsg else .ok (topD s)

/-- `bottom()` in the checked build. -/
def bottomDbg (s : Deque K V) : Except String (BoundingPair K V) :=
  if emptyD s then .error bottomEmptyMsg else .ok (bottomD s)

/-- `pop()` in the checked build; on failure the state is returned
untouched (the throw precedes every mutation). -/
def popDbg (s : Deque K V) : Except String (BoundingPair K V) × Deque K V :=
  if emptyD s then (.error popEmptyMsg, s) else (.ok (pop s).1, (pop s).2)

/-- `popBottom()` in the checked build. -/
def popBottomDbg (s : Deque K V) :
    Except String (BoundingPair K V) × Deque K V :=
  if emptyD s then (.error popEmptyMsg, s)
  else (.ok (popBottom s).1, (popBottom s).2)

/-! ## Structural well-formedness -/

/-- The structural bookkeeping invariant of the engine: the size respects
the capacity, an empty container is in the canonical state, and a
non-empty container has its head in range with the tail `size - 1` logical
steps after it. -/
def StructInv (s : Deque K V) : Prop :=
  s.size ≤ s.k ∧
  (s.size = 0 → s.head = 0 ∧ s.tail = 0) ∧
  (1 ≤ s.size → s.head < s.k ∧ s.tail = (s.head + s.size - 1) % s.k)

instance (s : Deque K V) : Decidable (StructInv s) := by
  unfold StructInv; infer_instance

/-! ## Concrete scenarios (shared by several of the claim theorems) -/

/-- A key-only entry for scenarios over `Nat` keys and values. -/
def entry (n : Nat) : BoundingPair Nat Nat := ⟨n, n⟩

/-- Scenario A: capacity-4 min-deque after `push 2,4,6,8; pop()` —
a plain, fully defined state (`head = 1`, `tail = 3`, keys `4,6,8`). -/
def scenAOps : List (Op Nat Nat) :=
  [Op.pushOp (entry 2), Op.pushOp (entry 4), Op.pushOp (entry 6),
   Op.pushOp (entry 8), Op.popOp]

/-- The state scenario A reaches. -/
def scenA : Deque Nat Nat := runOps minCompare scenAOps (mkDeque Nat Nat 4)

/-- Scenario C: capacity-6 min-deque after
`push 2,4,6,8,10,12; pop ×4; push 14,16,18,20` — a full container whose
live range wraps (`head = 4`, `tail = 3`, keys `10,12,14,16,18,20`). -/
def scenCOps : List (Op Nat Nat) :=
  [Op.pushOp (entry 2), Op.pushOp (entry 4), Op.pushOp (entry 6),
   Op.pushOp (entry 8), Op.pushOp (entry 10), Op.pushOp (entry 12),
   Op.popOp, Op.popOp, Op.popOp, Op.popOp,
   Op.pushOp (entry 14), Op.pushOp (entry 16), Op.pushOp (entry 18),
   Op.pushOp (entry 20)]

/-- The state scenario C reaches. -/
def scenC : Deque Nat Nat := runOps minCompare scenCOps (mkDeque Nat Nat 6)

/-- Scenario for the merge claim: capacity-3 min-deque after
`push 2,4,6; pop()` (`head = 1`, keys `4,6`). -/
def mergeAOps : List (Op Nat Nat) :=
  [Op.pushOp (entry 2), Op.pushOp (entry 4), Op.pushOp (entry 6), Op.popOp]

/-- The merge destination `A`. -/
def mergeA : Deque Nat Nat := runOps minCompare mergeAOps (mkDeque Nat Nat 3)

/-- The merge source `B`: a capacity-3 min-deque holding the single
entry `5`. -/
def mergeB : Deque Nat Nat := pushAll minCompare [entry 5] (mkDeque Nat Nat 3)

/-- A sample `push`/`emplace` sequence overflowing a capacity-2 deque. -/
def callsW : List (PushCall Nat Nat) :=
  [PushCall.pushC (entry 5), PushCall.emplaceC 3 3, PushCall.pushC (entry 4),
   PushCall.pushC (entry 9)]

/-! ## Basic bookkeeping lemmas -/

/-- `sortedOk` is exactly the adjacent-pairs chain condition. -/
theorem sortedOk_iff_chain (cmp : K → K → Bool) :
    ∀ l : List K,
      sortedOk cmp l = true ↔ List.Chain' (fun a b => cmp b a = false) l
  | [] => by simp [sortedOk]
  | [a] => by simp [sortedOk]
  | a :: b :: rest => by
    rw [List.chain'_cons, ← sortedOk_iff_chain cmp (b :: rest)]
    simp [sortedOk]

/-- `insert` preserves the capacity. -/
theorem insert_k (cmp : K → K → Bool) (s : Deque K V) (e : BoundingPair K V) :
    (insert cmp s e).k = s.k := by
  simp only [insert]
  repeat' split
  all_goals rfl

/-- `insert` increments the size (from `0` it writes size `1`). -/
theorem insert_size (cmp : K → K → Bool) (s : Deque K V) (e : BoundingPair K V) :
    (insert cmp s e).size = if s.size = 0 then 1 else s.size + 1 := by
  simp only [insert]
  repeat' split
  all_goals simp_all

/-- `_popBottom` decrements the size. -/
theorem popBottomAux_size (s : Deque K V) : (popBottomAux s).size = s.size - 1 := by
  unfold popBottomAux clearD
  dsimp only
  split
  · simp_all
  · rfl

/-- `_popBottom` preserves the capacity. -/
theorem popBottomAux_k (s : Deque K V) : (popBottomAux s).k = s.k := by
  unfold popBottomAux clearD
  dsimp only
  split <;> rfl

/-- `push` preserves the capacity. -/
theorem push_k (cmp : K → K → Bool) (s : Deque K V) (e : BoundingPair K V) :
    (push cmp s e).k = s.k := by
  unfold push
  split
  · split
    · rw [insert_k, popBottomAux_k]
    · rfl
  · exact insert_k cmp s e

/-- `push` keeps the size within the capacity. -/
theorem push_size_le (cmp : K → K → Bool) (s : Deque K V) (e : BoundingPair K V)
    (hk : 1 ≤ s.k) (h : s.size ≤ s.k) : (push cmp s e).size ≤ s.k := by
  unfold push
  split
  · split
    · rw [insert_size, popBottomAux_size]
      split <;> omega
    · exact h
  · rw [insert_size]
    split <;> omega

/-- `push` on a non-full container increments the size. -/
theorem push_size_notfull (cmp : K → K → Bool) (s : Deque K V)
    (e : BoundingPair K V) (h : s.size < s.k) :
    (push cmp s e).size = s.size + 1 := by
  unfold push
  rw [if_neg (by omega)]
  rw [insert_size]
  split <;> omega

/-- `emplace` is `push` of the constructed pair (the source duplicates
the body). -/
theorem emplace_eq_push (cmp : K → K → Bool) (s : Deque K V) (key : K)
    (value : V) : emplace cmp s key value = push cmp s ⟨key, value⟩ := rfl

/-- Any sequence of `push`/`emplace` calls keeps `size ≤ capacity` and
never changes the capacity. -/
theorem runPushCalls_bound (cmp : K → K → Bool) :
    ∀ (calls : List (PushCall K V)) (s : Deque K V), 1 ≤ s.k → s.size ≤ s.k →
      (runPushCalls cmp calls s).size ≤ s.k ∧ (runPushCalls cmp calls s).k = s.k
  | [], s, _, hs => ⟨hs, rfl⟩
  | PushCall.pushC e :: rest, s, hk, hs => by
    have h1 := push_k cmp s e
    have h2 := push_size_le cmp s e hk hs
    have ih := runPushCalls_bound cmp rest (push cmp s e) (by omega) (by omega)
    exact ⟨by rw [runPushCalls]; omega, by rw [runPushCalls]; omega⟩
  | PushCall.emplaceC key value :: rest, s, hk, hs => by
    have h1 := push_k cmp s ⟨key, value⟩
    have h2 := push_size_le cmp s ⟨key, value⟩ hk hs
    have ih := runPushCalls_bound cmp rest (push cmp s ⟨key, value⟩)
      (by omega) (by omega)
    rw [runPushCalls, emplace_eq_push]
    exact ⟨by omega, by omega⟩

/-- `pop` returns the entry `top()` returned before the call (the buffer
is untouched by `_popTop`). -/
theorem pop_fst (s : Deque K V) : (pop s).1 = topD s := by
  unfold pop popTopAux clearD topD
  dsimp only
  split <;> rfl

/-- On a container with at least two entries, `pop` advances the head
circularly, decrements the size and leaves the tail alone. -/
theorem pop_step (s : Deque K V) (h : 2 ≤ s.size) :
    (pop s).2.head = nextIndex s s.head ∧ (pop s).2.size = s.size - 1 ∧
    (pop s).2.tail = s.tail := by
  unfold pop popTopAux
  dsimp only
  rw [if_neg (by omega)]
  exact ⟨rfl, rfl, rfl⟩

/-- Popping the last entry resets the canonical empty state. -/
theorem pop_last (s : Deque K V) (h : s.size = 1) :
    (pop s).2.head = 0 ∧ (pop s).2.tail = 0 ∧ (pop s).2.size = 0 := by
  unfold pop popTopAux clearD
  dsimp only
  rw [if_pos (by omega)]
  exact ⟨rfl, rfl, rfl⟩

/-- Popping the last entry from the bottom also resets the canonical
empty state. -/
theorem popBottom_last (s : Deque K V) (h : s.size = 1) :
    (popBottom s).2.head = 0 ∧ (popBottom s).2.tail = 0 ∧
    (popBottom s).2.size = 0 := by
  unfold popBottom popBottomAux clearD
  dsimp only
  rw [if_pos (by omega)]
  exact ⟨rfl, rfl, rfl⟩

/-- `pop` decrements the size. -/
theorem pop_size (s : Deque K V) : (pop s).2.size = s.size - 1 := by
  unfold pop popTopAux clearD
  dsimp only
  split
  · simp_all
  · rfl

/-- Pushing a list whose length fits the remaining room adds exactly its
length to the size. -/
theorem pushAll_size (cmp : K → K → Bool) :
    ∀ (es : List (BoundingPair K V)) (s : Deque K V),
      s.size + es.length ≤ s.k →
      (pushAll cmp es s).size = s.size + es.length ∧ (pushAll cmp es s).k = s.k
  | [], s, _ => ⟨rfl, rfl⟩
  | e :: rest, s, h => by
    have h1 := push_k cmp s e
    have h2 := push_size_notfull cmp s e (by simp at h; omega)
    have ih := pushAll_size cmp rest (push cmp s e) (by simp at h ⊢; omega)
    unfold pushAll at ih ⊢
    rw [List.foldl_cons]
    constructor
    · rw [ih.1]; simp; omega
    · rw [ih.2]; omega

/-- Popping as many times as there are live entries ends in the
canonical empty state (`head = tail = 0`, `size = 0`). -/
theorem popN_canonical :
    ∀ (n : Nat) (s : Deque K V), s.size = n → (n = 0 → s.head = 0 ∧ s.tail = 0) →
      (popN n s).head = 0 ∧ (popN n s).tail = 0 ∧ (popN n s).size = 0
  | 0, s, hs, h0 => ⟨(h0 rfl).1, (h0 rfl).2, hs⟩
  | n + 1, s, hs, _ => by
    rw [popN]
    by_cases hn : n = 0
    · subst hn
      have hlast := pop_last s (by omega)
      exact popN_canonical 0 (pop s).2 hlast.2.2 (fun _ => ⟨hlast.1, hlast.2.1⟩)
    · have hsz := pop_size s
      exact popN_canonical n (pop s).2 (by omega) (by omega)

/-- `resize` into a non-wrapped live range, written as one record. -/
theorem resize_eq_nonwrapped (K V : Type) [Inhabited K] [Inhabited V]
    (s : Deque K V) (kNew : Nat) (hne : kNew ≠ 0) (hle : s.head ≤ s.tail) :
    resize s kNew =
      { buffer := fun j =>
          if j < min s.size kNew then s.buffer (s.head + j) else default,
        k := kNew, size := min s.size kNew, head := 0,
        tail := (min s.size kNew + sizetCard - 1) % sizetCard } := by
  simp only [resize]
  rw [if_neg hne, if_pos hle]

/-- `resize` of a wrapped live range, written as one record. -/
theorem resize_eq_wrapped (K V : Type) [Inhabited K] [Inhabited V]
    (s : Deque K V) (kNew : Nat) (hne : kNew ≠ 0) (hgt : ¬ s.head ≤ s.tail) :
    resize s kNew =
      { buffer := fun j =>
          if j < min (s.k - s.head) kNew then s.buffer (s.head + j)
          else if j < min (s.k - s.head) kNew +
              min (s.tail + 1) (kNew - min (s.k - s.head) kNew) then
            s.buffer (j - min (s.k - s.head) kNew)
          else default,
        k := kNew,
        size := min (s.k - s.head) kNew +
          min (s.tail + 1) (kNew - min (s.k - s.head) kNew),
        head := 0,
        tail := (min (s.k - s.head) kNew +
          min (s.tail + 1) (kNew - min (s.k - s.head) kNew) + sizetCard - 1) %
          sizetCard } := by
  simp only [resize]
  rw [if_neg hne, if_neg hgt]

end BPD

namespace BPD

variable {K V : Type}

/-! ## Claim theorems -/

/-- Claim C1 (sort-order invariant — refuted, code bug): the claim says
that for every sequence of push/pop operations the live entries read from
`head` (equivalently, the entries returned by repeated `pop()`) are in
non-worsening priority order.  Concretely on a capacity-4 min-deque,
`push 2,4,6,8; pop(); push 5` is a fully defined execution (the checked
model reports no fault) whose live keys are `4, 6, 5, 8` — the entry `6`
is followed by the better-ranked `5`, and repeated `pop()` returns the
same non-sorted sequence.  The head-ward shift of `insert` moves
`_buffer[_head .. index]` down one slot — one element too many — and then
writes the candidate at `index`, placing it after the first not-better
element. -/
theorem sortOrder_violation_after_pop_push :
    okLogicalKeys (runChk minCompare (scenAOps ++ [Op.pushOp (entry 5)])
        (mkDeque Nat Nat 4)) = some [4, 6, 5, 8] ∧
    logicalKeys (push minCompare scenA (entry 5)) = [4, 6, 5, 8] ∧
    popKeys (push minCompare scenA (entry 5)) = [4, 6, 5, 8] ∧
    sortedOk minCompare (logicalKeys (push minCompare scenA (entry 5))) = false ∧
    sortedOk minCompare (popKeys (push minCompare scenA (entry 5))) = false := by
  decide

/-- Claim C2, counterexample to the unrestricted form: `emplace` on a
container of capacity 0 evaluates `_buffer[_tail]` on an empty backing
buffer, an out-of-bounds access flagged by the checked model, so the
claim does not extend to capacity-0 containers. -/
theorem emplace_capacityZero_oob :
    errorOf (emplaceChk minCompare (mkDeque Nat Nat 0) 7 7) = some oobMsg := by
  decide

/-- Claim C2 (capacity bound, amended to capacity ≥ 1): starting from any
container of capacity ≥ 1 with `size ≤ capacity`, every sequence of
`push`/`emplace` calls keeps `size() ≤ capacity()` (and the capacity
itself fixed); and on any full container of capacity ≥ 1, pushing or
emplacing an entry whose key is not better than the bottom key is a
silent no-op: the state is returned unchanged. -/
theorem sizeBound_and_reject_noop (K V : Type) (cmp : K → K → Bool)
    (calls : List (PushCall K V)) (s0 : Deque K V)
    (hk : 1 ≤ s0.k) (hs : s0.size ≤ s0.k) :
    (runPushCalls cmp calls s0).size ≤ (runPushCalls cmp calls s0).k ∧
    (runPushCalls cmp calls s0).k = s0.k ∧
    (∀ (s : Deque K V) (element : BoundingPair K V), 1 ≤ s.k → s.size = s.k →
      cmp element.key (bottomKD s) = false →
      push cmp s element = s ∧ emplace cmp s element.key element.value = s) := by
  obtain ⟨h1, h2⟩ := runPushCalls_bound cmp calls s0 hk hs
  refine ⟨by omega, h2, ?_⟩
  intro s element _ hfull hrej
  have hp : push cmp s element = s := by
    unfold push
    rw [if_pos hfull]
    unfold bottomKD at hrej
    simp [hrej]
  exact ⟨hp, by rw [emplace_eq_push]; exact hp⟩

/-- Witness for the C2 theorem at a concrete overflowing call sequence on
a capacity-2 deque. -/
theorem sizeBound_and_reject_noop_witness :
    (runPushCalls minCompare callsW (mkDeque Nat Nat 2)).size ≤
      (runPushCalls minCompare callsW (mkDeque Nat Nat 2)).k ∧
    (runPushCalls minCompare callsW (mkDeque Nat Nat 2)).k =
      (mkDeque Nat Nat 2).k ∧
    (∀ (s : Deque Nat Nat) (element : BoundingPair Nat Nat), 1 ≤ s.k →
      s.size = s.k → minCompare element.key (bottomKD s) = false →
      push minCompare s element = s ∧
      emplace minCompare s element.key element.value = s) :=
  sizeBound_and_reject_noop Nat Nat minCompare callsW (mkDeque Nat Nat 2)
    (by decide) (by decide)

/-- Claim C3 (eviction correctness — refuted, code bug): the claim says a
push of a better-than-bottom entry onto a full capacity-k container keeps
`size = k`, adds the entry, removes exactly the old bottom and keeps all
other entries.  Scenario C reaches — by pushes and pops only, all verified
fault-free by the checked model — a full wrapped container (keys
`10,12,14,16,18,20`, `head = 4 > tail = 3`).  Pushing `11` (better than
bottom `20`) makes `insert` call `std::move_backward` with
`first = 5 > last = 4`, an invalid range (undefined behaviour), which the
checked model reports; and with the invalid move modelled as performing
no writes, the resulting live keys are `10,11,14,16,18,20`: the evicted
bottom `20` is back among the live entries and the retained entry `12`
has been overwritten — not the claimed multiset update. -/
theorem eviction_wrapped_invalid_move :
    okLogicalKeys (runChk minCompare scenCOps (mkDeque Nat Nat 6)) =
      some [10, 12, 14, 16, 18, 20] ∧
    scenC.size = 6 ∧ scenC.k = 6 ∧ scenC.head = 4 ∧ scenC.tail = 3 ∧
    bottomKD scenC = 20 ∧
    minCompare 11 (bottomKD scenC) = true ∧
    errorOf (pushChk minCompare scenC (entry 11)) = some invalidMoveMsg ∧
    logicalKeys (push minCompare scenC (entry 11)) = [10, 11, 14, 16, 18, 20] := by
  decide

/-- Claim C4 (merge correctness — refuted, code bug): the claim says that
after `A += B` (equal capacities, same policy) `A` holds exactly the best
`min(|A|+|B|, capacity)` entries of the union in sorted order, with `B`
unchanged.  With `A` the capacity-3 min-deque holding `4,6` with
`head = 1` (reached by `push 2,4,6; pop()`) and `B` holding `5`, the
merge inserts `5` through the faulty head-ward shift: the result holds
the right keys but in the non-sorted order `4, 6, 5` (the same state the
fault-free checked run of the equivalent push reaches), refuting the
sorted-order part of the claim. -/
theorem merge_order_violation :
    mergeA.k = 3 ∧ mergeB.k = 3 ∧
    logicalKeys mergeA = [4, 6] ∧ logicalKeys mergeB = [5] ∧
    okLogicalKeys (runChk minCompare (mergeAOps ++ [Op.pushOp (entry 5)])
        (mkDeque Nat Nat 3)) = some [4, 6, 5] ∧
    logicalKeys (madd minCompare mergeA mergeB) = [4, 6, 5] ∧
    popKeys (madd minCompare mergeA mergeB) = [4, 6, 5] ∧
    sortedOk minCompare (logicalKeys (madd minCompare mergeA mergeB)) = false := by
  decide

/-- Claim C5, counterexample to the canonical-empty-state part: resizing
an empty container (here capacity 5 → 3) executes `_tail = _size - 1`
with `_size = 0`, a `size_t` underflow leaving `tail = 2^64 - 1`, not the
canonical empty state `tail = 0` the claim requires. -/
theorem resize_empty_tail_underflow :
    (resize (mkDeque Nat Nat 5) 3).size = 0 ∧
    (resize (mkDeque Nat Nat 5) 3).head = 0 ∧
    (resize (mkDeque Nat Nat 5) 3).tail = sizetCard - 1 ∧
    (resize (mkDeque Nat Nat 5) 3).tail ≠ 0 := by
  decide

/-- Claim C5 (resize, amended): for every structurally well-formed
container and every new capacity `1 ≤ k' < 2^64`, `resize k'` retains
exactly the first `min(size, k')` live entries (the logical prefix —
which, when the container satisfies the sort invariant and the policy's
complement is transitive, are precisely the best-ranked ones: every
dropped entry is not better than every kept one), also when the live
range wraps; afterwards `head = 0` and, when the result is non-empty,
`tail = size - 1`; when the container was (and stays) empty, `tail`
underflows to `2^64 - 1` instead of the canonical empty state. -/
theorem resize_preserves_best_prefix (K V : Type) [Inhabited K] [Inhabited V]
    (cmp : K → K → Bool) (s : Deque K V) (kNew : Nat)
    (hinv : StructInv s) (hk1 : 1 ≤ kNew) (hkw : kNew < sizetCard) :
    (resize s kNew).k = kNew ∧
    (resize s kNew).head = 0 ∧
    (resize s kNew).size = min s.size kNew ∧
    logicalList (resize s kNew) = (logicalList s).take (min s.size kNew) ∧
    (1 ≤ min s.size kNew → (resize s kNew).tail = min s.size kNew - 1) ∧
    (s.size = 0 → (resize s kNew).tail = sizetCard - 1) ∧
    (sortedOk cmp (logicalKeys s) = true →
      (∀ a b c : K, cmp b a = false → cmp c b = false → cmp c a = false) →
      ∀ x ∈ (logicalKeys s).drop (min s.size kNew),
        ∀ y ∈ (logicalKeys s).take (min s.size kNew), cmp x y = false) := by
  obtain ⟨hsk, hemp, hpos⟩ := hinv
  have hne : kNew ≠ 0 := by omega
  have hkw2 : kNew < 18446744073709551616 := by simpa [sizetCard] using hkw
  have hbest : sortedOk cmp (logicalKeys s) = true →
      (∀ a b c : K, cmp b a = false → cmp c b = false → cmp c a = false) →
      ∀ x ∈ (logicalKeys s).drop (min s.size kNew),
        ∀ y ∈ (logicalKeys s).take (min s.size kNew), cmp x y = false := by
    intro hsort htr
    haveI : IsTrans K (fun a b => cmp b a = false) :=
      ⟨fun a b c hab hbc => htr a b c hab hbc⟩
    have hpw := List.chain'_iff_pairwise.mp
      ((sortedOk_iff_chain cmp (logicalKeys s)).mp hsort)
    intro x hx y hy
    have hsplit := List.take_append_drop (min s.size kNew) (logicalKeys s)
    rw [← hsplit] at hpw
    exact (List.pairwise_append.mp hpw).2.2 y hy x hx
  by_cases hle : s.head ≤ s.tail
  · have hnw : 1 ≤ s.size → s.head + s.size ≤ s.k := by
      intro h1
      obtain ⟨hhead, htail⟩ := hpos h1
      rcases Nat.lt_or_ge (s.head + s.size - 1) s.k with hlt | hge
      · omega
      · have hmod : (s.head + s.size - 1) % s.k = s.head + s.size - 1 - s.k := by
          rw [Nat.mod_eq_sub_mod hge]
          exact Nat.mod_eq_of_lt (by omega)
        rw [hmod] at htail
        omega
    rw [resize_eq_nonwrapped K V s kNew hne hle]
    refine ⟨rfl, rfl, rfl, ?_, ?_, ?_, hbest⟩
    · by_cases hsz : s.size = 0
      · simp [logicalList, hsz]
      · unfold logicalList
        dsimp only
        rw [← List.map_take, List.take_range, inf_eq_min,
          show min (min s.size kNew) s.size = min s.size kNew by omega]
        apply List.map_congr_left
        intro i hi
        rw [List.mem_range] at hi
        rw [Nat.zero_add, Nat.mod_eq_of_lt (show i < kNew by omega)]
        rw [if_pos hi]
        have h1 : 1 ≤ s.size := by omega
        have := hnw h1
        congr 1
        rw [Nat.mod_eq_of_lt (by omega)]
    · intro hm1
      dsimp only
      simp only [sizetCard]
      omega
    · intro h0
      dsimp only
      simp only [sizetCard]
      omega
  · have h1 : 1 ≤ s.size := by
      by_contra hc
      have h0 : s.size = 0 := by omega
      obtain ⟨hh, ht⟩ := hemp h0
      omega
    obtain ⟨hhead, htail⟩ := hpos h1
    have hk0 : 1 ≤ s.k := by omega
    have hwrap : s.k ≤ s.head + s.size - 1 ∧
        s.tail = s.head + s.size - 1 - s.k := by
      rcases Nat.lt_or_ge (s.head + s.size - 1) s.k with hlt2 | hge
      · rw [Nat.mod_eq_of_lt hlt2] at htail
        omega
      · have hmod : (s.head + s.size - 1) % s.k = s.head + s.size - 1 - s.k := by
          rw [Nat.mod_eq_sub_mod hge]
          exact Nat.mod_eq_of_lt (by omega)
        rw [hmod] at htail
        exact ⟨hge, htail⟩
    have hm : min (s.k - s.head) kNew +
        min (s.tail + 1) (kNew - min (s.k - s.head) kNew) = min s.size kNew := by
      omega
    rw [resize_eq_wrapped K V s kNew hne hle]
    refine ⟨rfl, rfl, hm, ?_, ?_, ?_, hbest⟩
    · unfold logicalList
      dsimp only
      rw [hm]
      rw [← List.map_take, List.take_range, inf_eq_min,
        show min (min s.size kNew) s.size = min s.size kNew by omega]
      apply List.map_congr_left
      intro i hi
      rw [List.mem_range] at hi
      rw [Nat.zero_add, Nat.mod_eq_of_lt (show i < kNew by omega)]
      by_cases hict : i < min (s.k - s.head) kNew
      · rw [if_pos hict]
        congr 1
        rw [Nat.mod_eq_of_lt (by omega)]
      · have hct : min (s.k - s.head) kNew = s.k - s.head := by omega
        rw [if_neg hict, if_pos hi]
        have hmod2 : (s.head + i) % s.k = i - (s.k - s.head) := by
          rw [Nat.mod_eq_sub_mod (by omega)]
          rw [Nat.mod_eq_of_lt (by omega)]
          omega
        rw [hmod2, hct]
    · intro hm1
      dsimp only
      rw [hm]
      simp only [sizetCard]
      omega
    · intro h0
      omega

/-- Witness for the C5 theorem at scenario C (a wrapped, sorted, full
container) resized from capacity 6 to 4. -/
theorem resize_preserves_best_prefix_witness :
    StructInv scenC ∧
    ((resize scenC 4).k = 4 ∧
     (resize scenC 4).head = 0 ∧
     (resize scenC 4).size = min scenC.size 4 ∧
     logicalList (resize scenC 4) = (logicalList scenC).take (min scenC.size 4) ∧
     (1 ≤ min scenC.size 4 → (resize scenC 4).tail = min scenC.size 4 - 1) ∧
     (scenC.size = 0 → (resize scenC 4).tail = sizetCard - 1) ∧
     (sortedOk minCompare (logicalKeys scenC) = true →
       (∀ a b c : Nat, minCompare b a = false → minCompare c b = false →
         minCompare c a = false) →
       ∀ x ∈ (logicalKeys scenC).drop (min scenC.size 4),
         ∀ y ∈ (logicalKeys scenC).take (min scenC.size 4),
           minCompare x y = false)) :=
  ⟨by decide,
   resize_preserves_best_prefix Nat Nat minCompare scenC 4 (by decide)
     (by decide) (by decide)⟩

/-- Claim C6, counterexample to the message-identifies-the-operation
part: `pop()` and `popBottom()` throw the identical string, so the
message does not determine which of the four guarded operations was
invoked. -/
theorem emptyMsg_not_injective : ¬ Function.Injective emptyMsg := by
  intro hinj
  have h : DebugOp.popOp = DebugOp.popBottomOp := hinj rfl
  exact absurd h (by decide)

/-- Claim C6 (checked-build empty errors, amended): in the checked build
each of `top`, `bottom`, `pop`, `popBottom` on an empty container raises
the error with its source message (the messages of `top` and `bottom`
name the operation; `pop` and `popBottom` share one message) and the
failed call leaves the container state unchanged; on a non-empty
container none of them raises. -/
theorem checked_empty_errors (K V : Type) (s : Deque K V) :
    (s.size = 0 →
      topDbg s = Except.error (emptyMsg DebugOp.topOp) ∧
      bottomDbg s = Except.error (emptyMsg DebugOp.bottomOp) ∧
      popDbg s = (Except.error (emptyMsg DebugOp.popOp), s) ∧
      popBottomDbg s = (Except.error (emptyMsg DebugOp.popBottomOp), s)) ∧
    (1 ≤ s.size →
      topDbg s = Except.ok (topD s) ∧
      bottomDbg s = Except.ok (bottomD s) ∧
      (popDbg s).1 = Except.ok (pop s).1 ∧
      (popBottomDbg s).1 = Except.ok (popBottom s).1) := by
  constructor
  · intro h
    have he : emptyD s = true := by simp [emptyD, h]
    simp [topDbg, bottomDbg, popDbg, popBottomDbg, he, emptyMsg,
      topEmptyMsg, bottomEmptyMsg, popEmptyMsg]
  · intro h
    have he : emptyD s = false := by simp [emptyD]; omega
    simp [topDbg, bottomDbg, popDbg, popBottomDbg, he]

/-- Witness for the C6 theorem: the error cases at an empty capacity-2
deque and the no-error cases at the non-empty scenario-A state. -/
theorem checked_empty_errors_witness :
    (topDbg (mkDeque Nat Nat 2) = Except.error (emptyMsg DebugOp.topOp) ∧
     bottomDbg (mkDeque Nat Nat 2) =
       Except.error (emptyMsg DebugOp.bottomOp) ∧
     popDbg (mkDeque Nat Nat 2) =
       (Except.error (emptyMsg DebugOp.popOp), mkDeque Nat Nat 2) ∧
     popBottomDbg (mkDeque Nat Nat 2) =
       (Except.error (emptyMsg DebugOp.popBottomOp), mkDeque Nat Nat 2)) ∧
    (topDbg scenA = Except.ok (topD scenA) ∧
     bottomDbg scenA = Except.ok (bottomD scenA) ∧
     (popDbg scenA).1 = Except.ok (pop scenA).1 ∧
     (popBottomDbg scenA).1 = Except.ok (popBottom scenA).1) :=
  ⟨(checked_empty_errors Nat Nat (mkDeque Nat Nat 2)).1 rfl,
   (checked_empty_errors Nat Nat scenA).2 (by decide)⟩

/-- Claim C7 (pop semantics and canonical empty reset): `pop()` returns
the entry `top()` returned before the call; on a container with at least
two entries it advances `head` one step circularly and decrements the
size leaving `tail` alone; removing the last entry (by `pop` or
`popBottom`) resets the canonical empty state `head = tail = 0`,
`size = 0`; and pushing `n ≤ capacity` entries onto a fresh container and
popping `n` times ends with `size() = 0`, `empty() = true` and
`head = tail = 0`. -/
theorem pop_semantics_canonical_reset (K V : Type) [Inhabited K] [Inhabited V] :
    (∀ s : Deque K V, (pop s).1 = topD s) ∧
    (∀ s : Deque K V, 2 ≤ s.size →
      (pop s).2.head = nextIndex s s.head ∧ (pop s).2.size = s.size - 1 ∧
      (pop s).2.tail = s.tail) ∧
    (∀ s : Deque K V, s.size = 1 →
      ((pop s).2.head = 0 ∧ (pop s).2.tail = 0 ∧ (pop s).2.size = 0) ∧
      ((popBottom s).2.head = 0 ∧ (popBottom s).2.tail = 0 ∧
        (popBottom s).2.size = 0)) ∧
    (∀ (cmp : K → K → Bool) (capacity : Nat) (es : List (BoundingPair K V)),
      es.length ≤ capacity →
      (popN es.length (pushAll cmp es (mkDeque K V capacity))).size = 0 ∧
      emptyD (popN es.length (pushAll cmp es (mkDeque K V capacity))) = true ∧
      (popN es.length (pushAll cmp es (mkDeque K V capacity))).head = 0 ∧
      (popN es.length (pushAll cmp es (mkDeque K V capacity))).tail = 0) := by
  refine ⟨pop_fst, fun s h => pop_step s h,
    fun s h => ⟨pop_last s h, popBottom_last s h⟩, ?_⟩
  intro cmp capacity es hlen
  have hps := pushAll_size cmp es (mkDeque K V capacity)
    (by simp only [mkDeque]; omega)
  have hcan := popN_canonical es.length (pushAll cmp es (mkDeque K V capacity))
    (by rw [hps.1]; simp [mkDeque])
    (fun h0 => by
      have he : es = [] := List.length_eq_zero.mp h0
      subst he
      exact ⟨rfl, rfl⟩)
  refine ⟨hcan.2.2, ?_, hcan.1, hcan.2.1⟩
  simp [emptyD, hcan.2.2]

/-- Witness for the C7 theorem: the step case at the non-empty
scenario-A state and the full push-then-pop round trip of three entries
through a capacity-4 deque. -/
theorem pop_semantics_canonical_reset_witness :
    ((pop scenA).2.head = nextIndex scenA scenA.head ∧
     (pop scenA).2.size = scenA.size - 1 ∧ (pop scenA).2.tail = scenA.tail) ∧
    ((popN ([entry 5, entry 1, entry 3] : List (BoundingPair Nat Nat)).length
        (pushAll minCompare [entry 5, entry 1, entry 3]
          (mkDeque Nat Nat 4))).size = 0 ∧
     emptyD (popN ([entry 5, entry 1, entry 3] : List (BoundingPair Nat Nat)).length
        (pushAll minCompare [entry 5, entry 1, entry 3]
          (mkDeque Nat Nat 4))) = true ∧
     (popN ([entry 5, entry 1, entry 3] : List (BoundingPair Nat Nat)).length
        (pushAll minCompare [entry 5, entry 1, entry 3]
          (mkDeque Nat Nat 4))).head = 0 ∧
     (popN ([entry 5, entry 1, entry 3] : List (BoundingPair Nat Nat)).length
        (pushAll minCompare [entry 5, entry 1, entry 3]
          (mkDeque Nat Nat 4))).tail = 0) :=
  ⟨(pop_semantics_canonical_reset Nat Nat).2.1 scenA (by decide),
   (pop_semantics_canonical_reset Nat Nat).2.2.2 minCompare 4
     [entry 5, entry 1, entry 3] (by decide)⟩

/-- Claim C8, counterexample to the minimal-side rule: at the scenario-A
state (`head = 1`, `tail = 3`, keys `4,6,8`), inserting key `7` has
lower-bound position 2, so the tail side holds `size - 2 = 1` entry and
the head side 2 entries — the tail boundary is nearer — yet the code
extends the head (`head` moves from 1 to 0, `tail` stays 3), shifting the
larger side (and, by the off-by-one of that shift, producing the
non-sorted content `4,6,8,7`). -/
theorem insert_shifts_farther_side :
    scenA.head = 1 ∧ scenA.tail = 3 ∧ scenA.size = 3 ∧
    logicalKeys scenA = [4, 6, 8] ∧
    bsGo minCompare scenA 7 (scenA.size + 1) 0 scenA.size = 2 ∧
    scenA.size - bsGo minCompare scenA 7 (scenA.size + 1) 0 scenA.size <
      bsGo minCompare scenA 7 (scenA.size + 1) 0 scenA.size ∧
    (insert minCompare scenA (entry 7)).head = 0 ∧
    (insert minCompare scenA (entry 7)).tail = scenA.tail ∧
    logicalKeys (insert minCompare scenA (entry 7)) = [4, 6, 8, 7] := by
  decide

/-- Claim C8 (interior-insertion shift rule, amended): when the computed
insertion index is strictly interior (neither `nextIndex(tail)` nor
`prevIndex(head)`), `insert` writes the candidate into the freed slot at
the index, increments the size, and chooses the side to shift by the
branch condition `head ≤ tail ∧ head > 0` — not by which boundary is
nearer: if it holds, the entries from `head` through the index move down
one slot and `head` is the extended (decremented) boundary with `tail`
unchanged; otherwise the entries from the index through `tail` move up
one slot and `tail` is the extended (incremented) boundary with `head`
unchanged. -/
theorem insert_shift_side_rule (K V : Type) (cmp : K → K → Bool)
    (s : Deque K V) (element : BoundingPair K V)
    (hsz : 1 ≤ s.size)
    (hnt : binarySearch cmp s element ≠ nextIndex s s.tail)
    (hph : binarySearch cmp s element ≠ prevIndex s s.head) :
    (insert cmp s element).buffer (binarySearch cmp s element) = element ∧
    (insert cmp s element).size = s.size + 1 ∧
    (s.head ≤ s.tail ∧ 0 < s.head →
      (insert cmp s element).head = s.head - 1 ∧
      (insert cmp s element).tail = s.tail ∧
      (∀ j, s.head - 1 ≤ j → j < binarySearch cmp s element →
        (insert cmp s element).buffer j = s.buffer (j + 1))) ∧
    (¬(s.head ≤ s.tail ∧ 0 < s.head) →
      (insert cmp s element).head = s.head ∧
      (insert cmp s element).tail = s.tail + 1 ∧
      (∀ j, binarySearch cmp s element < j → j ≤ s.tail + 1 →
        (insert cmp s element).buffer j = s.buffer (j - 1))) := by
  by_cases hb : s.head ≤ s.tail ∧ 0 < s.head
  · have hins : insert cmp s element =
        { s with buffer := fwrite (cppMove s.buffer s.head
                             (binarySearch cmp s element + 1) (s.head - 1))
                             (binarySearch cmp s element) element,
                 head := s.head - 1, size := s.size + 1 } := by
      simp only [insert]
      rw [if_neg (by omega), if_neg hnt, if_neg hph, if_pos hb]
    obtain ⟨hb1, hb2⟩ := hb
    rw [hins]
    refine ⟨by simp [fwrite], rfl, fun _ => ⟨rfl, rfl, ?_⟩,
      fun hc => absurd ⟨hb1, hb2⟩ hc⟩
    intro j hj1 hj2
    simp only [fwrite, cppMove]
    rw [if_neg (by omega), if_pos ⟨hj1, by omega⟩]
    congr 1
    omega
  · have hins : insert cmp s element =
        { s with buffer := fwrite (cppMoveBackward s.buffer
                             (binarySearch cmp s element) (s.tail + 1)
                             (s.tail + 2))
                             (binarySearch cmp s element) element,
                 tail := s.tail + 1, size := s.size + 1 } := by
      simp only [insert]
      rw [if_neg (by omega), if_neg hnt, if_neg hph, if_neg hb]
    rw [hins]
    refine ⟨by simp [fwrite], rfl, fun hc => absurd hc hb, fun _ => ⟨rfl, rfl, ?_⟩⟩
    intro j hj1 hj2
    simp only [fwrite, cppMoveBackward]
    rw [if_neg (by omega), if_pos (by omega)]
    congr 1
    omega

/-- Witness for the C8 theorem at the scenario-A state with candidate
key 7 (an interior insertion through the head-ward branch). -/
theorem insert_shift_side_rule_witness :
    1 ≤ scenA.size ∧
    ((insert minCompare scenA (entry 7)).buffer
        (binarySearch minCompare scenA (entry 7)) = entry 7 ∧
     (insert minCompare scenA (entry 7)).size = scenA.size + 1 ∧
     (scenA.head ≤ scenA.tail ∧ 0 < scenA.head →
       (insert minCompare scenA (entry 7)).head = scenA.head - 1 ∧
       (insert minCompare scenA (entry 7)).tail = scenA.tail ∧
       (∀ j, scenA.head - 1 ≤ j → j < binarySearch minCompare scenA (entry 7) →
         (insert minCompare scenA (entry 7)).buffer j = scenA.buffer (j + 1))) ∧
     (¬(scenA.head ≤ scenA.tail ∧ 0 < scenA.head) →
       (insert minCompare scenA (entry 7)).head = scenA.head ∧
       (insert minCompare scenA (entry 7)).tail = scenA.tail + 1 ∧
       (∀ j, binarySearch minCompare scenA (entry 7) < j → j ≤ scenA.tail + 1 →
         (insert minCompare scenA (entry 7)).buffer j = scenA.buffer (j - 1)))) :=
  ⟨by decide,
   insert_shift_side_rule Nat Nat minCompare scenA (entry 7)
     (by decide) (by decide) (by decide)⟩

/-- Claim C9 (resize(0) is a no-op): `resize` with new capacity 0 returns
immediately, leaving capacity, size, head, tail and the whole buffer
unchanged, and raises nothing. -/
theorem resize_zero_noop (K V : Type) [Inhabited K] [Inhabited V]
    (s : Deque K V) : resize s 0 = s := rfl

/-- Claim C10 (capacity-0 push safety — refuted, code bug): the claim
says `push`/`emplace` on a capacity-0 container are safe no-ops with no
out-of-bounds access and no modulo-by-zero.  On a freshly constructed
capacity-0 container, `_size == _k` holds (`0 == 0`), so `push` and
`emplace` immediately evaluate `_buffer[_tail]` — an out-of-bounds read
of the empty backing buffer, which the checked model reports (and had
that junk comparison succeeded, `_popBottom` would compute
`(_tail + _k - 1) % _k` with `_k = 0`). -/
theorem push_capacityZero_unsafe :
    errorOf (pushChk minCompare (mkDeque Nat Nat 0) (entry 1)) = some oobMsg ∧
    errorOf (emplaceChk minCompare (mkDeque Nat Nat 0) 1 1) = some oobMsg := by
  decide

end BPD
